import Mathlib

/-!
# Verification of the ponyc lexical-token module (`src/libponyc/ast/token.c`)

Shallow embedding of the token data model and operations of
`src/libponyc/ast/token.c`, with theorems checking the natural-language
specification against the code.

Modelling conventions:
* C byte strings are `List Nat` (each element one byte value).
* A `const char*` into intern-table storage is modelled as an `iptr`:
  the abstract address together with the bytes stored behind it.
* `pony_assert` failure (a fatal abort) is modelled by functions on
  `Option token_t` returning `none`; a null token pointer is `none`.
* External collaborators that are not part of this file's source
  (`lexer_print` from lexer.c, the libc `snprintf "%g"` rendering) are
  taken as explicit function parameters; the intern table
  (`stringtab_len` from stringtab.c) is modelled from the spec.
* Machine integers are `Nat`; the 64-bit wrap of `lexint_t` words is
  explicit `% 2^64` where it matters.
-/

/-- ASCII bytes of a Lean string literal (all literals used are ASCII). -/
def ascii (s : String) : List Nat := s.data.map Char.toNat

/-- The lexical kinds mentioned by `token.c`'s own switches; every other
member of the (closed, but externally declared) `token_id` enum is
`TK_OTHER n`, carrying its numeric enum value. -/
inductive token_id where
  | TK_EOF
  | TK_ID
  | TK_STRING
  | TK_INT
  | TK_FLOAT
  | TK_TRUE
  | TK_FALSE
  | TK_LEX_ERROR
  | TK_OTHER (n : Nat)
  deriving DecidableEq, Repr

/-- A 128-bit extended integer (`lexint_t` from lexint.h): two 64-bit
words; well-formed values have both words below `2^64`. -/
structure lexint_t where
  low : Nat
  high : Nat
  deriving DecidableEq, Repr

/-- The mathematical value of a `lexint_t`. -/
def lexint_t.value (i : lexint_t) : Nat := i.low + 2 ^ 64 * i.high

/-- A `const char*` into intern-table storage: the abstract address plus
the bytes it points at.  Pointer identity is equality of `iptr`. -/
structure iptr where
  addr : Nat
  bytes : List Nat
  deriving DecidableEq, Repr

/-- The discriminant-dependent payload union of `token_t`.  Exactly one
interpretation is live at a time; `pnone` is the zero-initialized state. -/
inductive payload_t where
  | pnone
  | text (p : iptr) (len : Nat)
  | real (bits : Nat)
  | integer (i : lexint_t)
  deriving DecidableEq, Repr

/-- Reading the `string` union member (junk default when another member
is live, as reading a C union member would be). -/
def payload_t.stringv : payload_t → iptr
  | .text p _ => p
  | _ => ⟨0, []⟩

/-- Reading the `str_length` union member. -/
def payload_t.str_lengthv : payload_t → Nat
  | .text _ l => l
  | _ => 0

/-- Reading the `real` union member. -/
def payload_t.realv : payload_t → Nat
  | .real b => b
  | _ => 0

/-- Reading the `integer` union member. -/
def payload_t.integerv : payload_t → lexint_t
  | .integer i => i
  | _ => ⟨0, 0⟩

/-- The token struct of token.c.  `source` is an opaque handle (`none` =
null); `printed` is the formatted cache, modelled as the abstract
identity of the owned 64-byte pool buffer (`none` = NULL). -/
structure token_t where
  id : token_id
  source : Option Nat
  line : Nat
  pos : Nat
  printed : Option Nat
  payload : payload_t
  deriving DecidableEq, Repr

/-- Embeds `token_new`: zero-initialized token with the given id. -/
def token_new (id : token_id) : token_t :=
  { id := id, source := none, line := 0, pos := 0, printed := none,
    payload := .pnone }

/-- Embeds `token_dup`: byte copy of the struct with `printed` reset to NULL;
asserts the argument is non-null. -/
def token_dup : Option token_t → Option token_t
  | none => none
  | some t => some { t with printed := none }

/-- Embeds `token_dup_new_id`: `token_dup` followed by overwriting the id. -/
def token_dup_new_id (t : Option token_t) (id : token_id) : Option token_t :=
  (token_dup t).map fun d => { d with id := id }

/-- Deallocation events issued by `token_free`, in order. -/
inductive free_event where
  | free_size (size : Nat) (buf : Nat)
  | free_token
  deriving DecidableEq, Repr

/-- Embeds `token_free`: the sequence of pool deallocations it performs.  A null
token yields the empty sequence (early return, no fault). -/
def token_free : Option token_t → List free_event
  | none => []
  | some t =>
    (match t.printed with
     | some p => [free_event.free_size 64 p]
     | none => []) ++ [free_event.free_token]

-- Read accessors (token.c lines 72-108).  `pony_assert` failure = `none`.

/-- Embeds `token_get_id`: asserts non-null, returns the id. -/
def token_get_id : Option token_t → Option token_id
  | none => none
  | some t => some t.id

/-- Embeds `token_string`: asserts non-null and id `TK_STRING` or `TK_ID`,
returns the stored text pointer. -/
def token_string : Option token_t → Option iptr
  | none => none
  | some t =>
    if t.id = .TK_STRING ∨ t.id = .TK_ID then some t.payload.stringv else none

/-- Embeds `token_string_len`: asserts non-null and id `TK_STRING` or `TK_ID`,
returns the stored explicit length. -/
def token_string_len : Option token_t → Option Nat
  | none => none
  | some t =>
    if t.id = .TK_STRING ∨ t.id = .TK_ID then some t.payload.str_lengthv
    else none

/-- Embeds `token_float`: asserts non-null and id `TK_FLOAT`, returns the stored
double. -/
def token_float : Option token_t → Option Nat
  | none => none
  | some t => if t.id = .TK_FLOAT then some t.payload.realv else none

/-- Embeds `token_int`: asserts non-null and id `TK_INT`, returns the stored
extended integer. -/
def token_int : Option token_t → Option lexint_t
  | none => none
  | some t => if t.id = .TK_INT then some t.payload.integerv else none

/-- Embeds `token_source`. -/
def token_source : Option token_t → Option (Option Nat)
  | none => none
  | some t => some t.source

/-- Embeds `token_line_number`. -/
def token_line_number : Option token_t → Option Nat
  | none => none
  | some t => some t.line

/-- Embeds `token_line_position`. -/
def token_line_position : Option token_t → Option Nat
  | none => none
  | some t => some t.pos

-- String intern table.  stringtab.c is not part of this file's source.

/-- Index of the first entry equal to `s` in the intern arena. -/
def stIdx : List (List Nat) → List Nat → Option Nat
  | [], _ => none
  | x :: xs, s => if x = s then some 0 else (stIdx xs s).map (· + 1)

/-- Modelled from the spec: `stringtab_len` of the String Intern Table
(stringtab.c, not under src/): given raw bytes and a length it returns a
canonical, stable pointer to deduplicated storage, equal byte sequences
always yielding the same pointer.  The arena is the list of interned byte
strings; the canonical address is the index of the content in the arena,
appending it when new. -/
def stringtab_len (tab : List (List Nat)) (value : List Nat) (len : Nat) :
    iptr × List (List Nat) :=
  let s := value.take len
  match stIdx tab s with
  | some i => (⟨i, s⟩, tab)
  | none => (⟨tab.length, s⟩, tab ++ [s])

/-- C `strlen`: bytes before the first zero byte. -/
def strlen (s : List Nat) : Nat := (s.takeWhile (· ≠ 0)).length

-- Write accessors (token.c lines 268-314).

/-- Embeds `token_set_id`: asserts non-null, overwrites the id. -/
def token_set_id : Option token_t → token_id → Option token_t
  | none, _ => none
  | some t, id => some { t with id := id }

/-- Embeds `token_set_string`: asserts non-null and id `TK_STRING` or `TK_ID`;
a zero `length` is recomputed by `strlen`; the bytes are interned and the
canonical pointer plus the length are stored.  Threads the intern arena. -/
def token_set_string (tab : List (List Nat)) :
    Option token_t → List Nat → Nat → Option (token_t × List (List Nat))
  | none, _, _ => none
  | some t, value, length =>
    if t.id = .TK_STRING ∨ t.id = .TK_ID then
      let len := if length = 0 then strlen value else length
      let r := stringtab_len tab value len
      some ({ t with payload := .text r.1 len }, r.2)
    else none

/-- Embeds `token_set_float`: asserts non-null and id `TK_FLOAT`. -/
def token_set_float : Option token_t → Nat → Option token_t
  | none, _ => none
  | some t, value =>
    if t.id = .TK_FLOAT then some { t with payload := .real value } else none

/-- Embeds `token_set_int`: asserts non-null and id `TK_INT`; copies the value. -/
def token_set_int : Option token_t → lexint_t → Option token_t
  | none, _ => none
  | some t, value =>
    if t.id = .TK_INT then some { t with payload := .integer value }
    else none

/-- Embeds `token_set_pos`: asserts non-null; overwrites `source` only when the
supplied source is non-null; always overwrites line and pos. -/
def token_set_pos : Option token_t → Option Nat → Nat → Nat → Option token_t
  | none, _, _, _ => none
  | some t, source, line, pos =>
    some { t with
           source := match source with
                     | some s => some s
                     | none => t.source,
           line := line, pos := pos }

-- Formatter / escaper (token.c lines 111-242).

/-- Decimal ASCII rendering of a natural number, as produced by
`snprintf "%llu"`. -/
def decDigits (n : Nat) : List Nat := (Nat.repr n).data.map Char.toNat

/-- C `strcspn s ".e"`: length of the initial segment of `s` containing
neither `.` (46) nor `e` (101). -/
def strcspnDotE (s : List Nat) : Nat :=
  (s.takeWhile (fun c => c ≠ 46 ∧ c ≠ 101)).length

/-- The float branch of `token_print` after `snprintf "%g"` has produced
`g`: append `".0"` exactly when `strcspn(g, ".e")` equals `g`'s length
(token.c lines 137-140). -/
def fmtFloatAdjust (g : List Nat) : List Nat :=
  if strcspnDotE g = g.length then g ++ [46, 48] else g

/-- The numeric enum value of a kind, used only by the
`Unknown_token_%d` fallback.  The enum values of the named kinds live in
token.h (not part of this source); only `TK_OTHER` carries its value. -/
def token_id_num : token_id → Nat
  | .TK_OTHER n => n
  | _ => 0

/-- Embeds `token_print` (token.c lines 111-161), with the two external
collaborators as parameters: `lp` is lexer.c's `lexer_print` (the fixed
name registered for a kind, NULL = `none`) and `fg` is the libc
`snprintf "%g"` rendering of the stored double. -/
def token_print (lp : token_id → Option (List Nat))
    (fg : Nat → List Nat) (t : token_t) : List Nat :=
  match t.id with
  | .TK_EOF => ascii "EOF"
  | .TK_ID => t.payload.stringv.bytes
  | .TK_STRING => t.payload.stringv.bytes
  | .TK_INT => decDigits (t.payload.integerv.low % 2 ^ 64)
  | .TK_FLOAT => fmtFloatAdjust (fg t.payload.realv)
  | .TK_LEX_ERROR => ascii "LEX_ERROR"
  | id =>
    match lp id with
    | some p => p
    | none => ascii "Unknown_token_" ++ decDigits (token_id_num id)

/-- Whether `token_print` writes into the token's cached buffer for this
kind (the `TK_INT`, `TK_FLOAT` and unknown-token branches allocate the
64-byte `printed` buffer when absent). -/
def token_print_allocates (lp : token_id → Option (List Nat)) :
    token_id → Bool
  | .TK_INT => true
  | .TK_FLOAT => true
  | .TK_EOF => false
  | .TK_ID => false
  | .TK_STRING => false
  | .TK_LEX_ERROR => false
  | id => (lp id).isNone

/-- The cache-allocation effect of `token_print`: `σ` is the allocator
state (the supply of fresh buffer identities; every live buffer identity
is below `σ`).  Returns the updated token and allocator state. -/
def token_print_alloc (lp : token_id → Option (List Nat))
    (t : token_t) (σ : Nat) : token_t × Nat :=
  if token_print_allocates lp t.id then
    match t.printed with
    | none => ({ t with printed := some σ }, σ + 1)
    | some _ => (t, σ)
  else (t, σ)

-- token_print_escaped (token.c lines 164-220).

/-- A byte needing escaping: double quote (34), backslash (92), zero. -/
def specialByte (c : Nat) : Bool := c = 34 || c = 92 || c = 0

/-- The counting loop of `token_print_escaped` (lines 180-186). -/
def countEscapes (s : List Nat) : Nat := (s.filter specialByte).length

/-- The per-byte expansion of the fill loop (lines 203-216): quote and
backslash get a backslash prefix, a zero byte becomes backslash then the
digit zero (48), everything else is copied verbatim. -/
def escChar (c : Nat) : List Nat :=
  if c = 34 ∨ c = 92 then [92, c]
  else if c = 0 then [92, 48]
  else [c]

/-- The whole fill loop: each input byte expanded in order. -/
def escapeLoop (s : List Nat) : List Nat := s.flatMap escChar

/-- Core of `token_print_escaped` on source bytes `str` read up to
`str_len`: count the escapes; with zero escapes return a plain copy with
a terminator appended, otherwise the escaped bytes with a terminator. -/
def token_print_escaped_core (str : List Nat) (str_len : Nat) : List Nat :=
  let s := str.take str_len
  if countEscapes s = 0 then s ++ [0]
  else escapeLoop s ++ [0]

/-- Embeds `token_print_escaped` (lines 164-220): a string-kind token supplies
its raw text and explicit length; every other kind renders through
`token_print` and is measured by `strlen`.  Asserts non-null. -/
def token_print_escaped (lp : token_id → Option (List Nat))
    (fg : Nat → List Nat) : Option token_t → Option (List Nat)
  | none => none
  | some t =>
    if t.id = .TK_STRING then
      some (token_print_escaped_core t.payload.stringv.bytes
        t.payload.str_lengthv)
    else
      let s := token_print lp fg t
      some (token_print_escaped_core s (strlen s))

/-- Embeds `token_id_desc` (token.c lines 223-242): fixed noun phrases for the
literal kinds, then the lexer's registered name, then the (misspelled)
`"UNKOWN"` fallback. -/
def token_id_desc (lp : token_id → Option (List Nat))
    (id : token_id) : List Nat :=
  match id with
  | .TK_EOF => ascii "EOF"
  | .TK_ID => ascii "id"
  | .TK_STRING => ascii "string literal"
  | .TK_INT => ascii "int literal"
  | .TK_FLOAT => ascii "float literal"
  | .TK_TRUE => ascii "true literal"
  | .TK_FALSE => ascii "false literal"
  | _ =>
    match lp id with
    | some p => p
    | none => ascii "UNKOWN"

/-- The kinds `token_id_desc` gives a fixed noun phrase to. -/
def isDescLiteralKind : token_id → Bool
  | .TK_EOF => true
  | .TK_ID => true
  | .TK_STRING => true
  | .TK_INT => true
  | .TK_FLOAT => true
  | .TK_TRUE => true
  | .TK_FALSE => true
  | _ => false

/-- The spec-side inverse of the escaping transform: a backslash followed
by the digit zero decodes to the zero byte, a backslash followed by any
other byte decodes to that byte, and every other byte decodes to itself. -/
def unescape : List Nat → List Nat
  | [] => []
  | c :: rest =>
    if c = 92 then
      match rest with
      | [] => [c]
      | d :: rest2 => (if d = 48 then 0 else d) :: unescape rest2
    else c :: unescape rest

-- Lemmas about the escaping transform.

theorem escapeLoop_nil : escapeLoop [] = [] := rfl

theorem escapeLoop_cons (c : Nat) (s : List Nat) :
    escapeLoop (c :: s) = escChar c ++ escapeLoop s := by
  simp [escapeLoop]

theorem escChar_length (c : Nat) :
    (escChar c).length = if specialByte c then 2 else 1 := by
  unfold escChar specialByte
  by_cases h34 : c = 34 <;> by_cases h92 : c = 92 <;> by_cases h0 : c = 0 <;>
    simp [h34, h92, h0]

/-- The fill loop writes exactly `str_len + escapes` content bytes. -/
theorem escapeLoop_length (s : List Nat) :
    (escapeLoop s).length = s.length + countEscapes s := by
  induction s with
  | nil => rfl
  | cons c s ih =>
    rw [escapeLoop_cons, List.length_append, ih, escChar_length]
    unfold countEscapes at *
    by_cases h : specialByte c <;> simp [List.filter_cons, h] <;> omega

/-- A byte that needs no escape expands to itself. -/
theorem specialByte_false_escChar (c : Nat) (h : specialByte c = false) :
    escChar c = [c] := by
  unfold specialByte at h
  simp only [Bool.or_eq_false_iff, decide_eq_false_iff_not] at h
  unfold escChar
  simp [h.1.1, h.1.2, h.2]

/-- With no special bytes the escape loop copies the input verbatim, so
the copy fast path and the escape path agree. -/
theorem escapeLoop_of_no_escapes (s : List Nat) (h : countEscapes s = 0) :
    escapeLoop s = s := by
  induction s with
  | nil => rfl
  | cons c s ih =>
    unfold countEscapes at h
    rw [List.filter_cons] at h
    by_cases hc : specialByte c
    · simp [hc] at h
    · have hc' : specialByte c = false := by simpa using hc
      rw [hc'] at h
      simp only [Bool.false_eq_true, if_false] at h
      rw [escapeLoop_cons, specialByte_false_escChar c hc',
        ih (by simpa [countEscapes] using h)]
      rfl

theorem unescape_nil : unescape [] = [] := by rw [unescape.eq_def]

theorem unescape_backslash (d : Nat) (rest : List Nat) :
    unescape (92 :: d :: rest) = (if d = 48 then 0 else d) :: unescape rest := by
  rw [unescape.eq_def]
  simp

theorem unescape_cons (c : Nat) (rest : List Nat) (h : c ≠ 92) :
    unescape (c :: rest) = c :: unescape rest := by
  rw [unescape.eq_def]
  simp [h]

/-- Unescaping inverts the escape expansion byte-for-byte. -/
theorem unescape_escapeLoop (s : List Nat) :
    unescape (escapeLoop s) = s := by
  induction s with
  | nil => rfl
  | cons c s ih =>
    rw [escapeLoop_cons]
    by_cases hsp : specialByte c
    · unfold specialByte at hsp
      simp only [Bool.or_eq_true, decide_eq_true_eq] at hsp
      rcases hsp with (h34 | h92) | h0
      · subst h34
        have he : escChar 34 = [92, 34] := rfl
        rw [he]
        simp only [List.cons_append, List.nil_append]
        rw [unescape_backslash]
        simp [ih]
      · subst h92
        have he : escChar 92 = [92, 92] := rfl
        rw [he]
        simp only [List.cons_append, List.nil_append]
        rw [unescape_backslash]
        simp [ih]
      · subst h0
        have he : escChar 0 = [92, 48] := rfl
        rw [he]
        simp only [List.cons_append, List.nil_append]
        rw [unescape_backslash]
        simp [ih]
    · have hc' : specialByte c = false := by simpa using hsp
      have h92 : c ≠ 92 := by
        unfold specialByte at hc'
        simp only [Bool.or_eq_false_iff, decide_eq_false_iff_not] at hc'
        exact hc'.1.2
      rw [specialByte_false_escChar c hc', List.singleton_append,
        unescape_cons c _ h92, ih]

-- Claim theorems.

/-- C1: for a string-kind token with stored text of explicit length `n`
(the length of the interned bytes) and `k` special bytes (double quote,
backslash, zero), `token_print_escaped` returns the byte-for-byte escape
expansion (`"`→`\"`, `\`→`\\`, zero→`\0`, everything else verbatim) plus
one terminator byte, of `n + k` content bytes; with `k = 0` the content
is an exact copy of the input; and unescaping the content reconstructs
the original bytes. -/
theorem token_print_escaped_string_spec
    (lp : token_id → Option (List Nat)) (fg : Nat → List Nat)
    (t : token_t) (p : iptr) (n : Nat)
    (hid : t.id = .TK_STRING) (hp : t.payload = .text p n)
    (hn : n = p.bytes.length) :
    token_print_escaped lp fg (some t) = some (escapeLoop p.bytes ++ [0]) ∧
    (escapeLoop p.bytes).length = n + countEscapes p.bytes ∧
    (countEscapes p.bytes = 0 →
      token_print_escaped lp fg (some t) = some (p.bytes ++ [0])) ∧
    unescape (escapeLoop p.bytes) = p.bytes := by
  subst hn
  have hcore : token_print_escaped lp fg (some t) =
      some (token_print_escaped_core p.bytes p.bytes.length) := by
    simp [token_print_escaped, hid, hp, payload_t.stringv,
      payload_t.str_lengthv]
  have htake : p.bytes.take p.bytes.length = p.bytes := List.take_length _
  refine ⟨?_, ?_, ?_, unescape_escapeLoop _⟩
  · rw [hcore]
    unfold token_print_escaped_core
    rw [htake]
    by_cases h0 : countEscapes p.bytes = 0
    · rw [if_pos h0, escapeLoop_of_no_escapes _ h0]
    · rw [if_neg h0]
  · rw [escapeLoop_length]
  · intro h0
    rw [hcore]
    unfold token_print_escaped_core
    rw [htake, if_pos h0]

/-- The scenario bytes `a"b\<zero>c` with two quotes/backslashes and one
zero byte. -/
def c1bytes : List Nat := [97, 34, 98, 92, 0, 99]

/-- A string token holding `c1bytes`. -/
def c1tok : token_t :=
  { id := .TK_STRING, source := none, line := 0, pos := 0, printed := none,
    payload := .text ⟨0, c1bytes⟩ 6 }

/-- C1 witness: the theorem applied to a concrete string token whose
text holds a double quote, a backslash and a zero byte. -/
theorem token_print_escaped_string_spec_witness :
    token_print_escaped (fun _ => none) (fun _ => []) (some c1tok) =
      some (escapeLoop c1bytes ++ [0]) ∧
    (escapeLoop c1bytes).length = 6 + countEscapes c1bytes ∧
    (countEscapes c1bytes = 0 →
      token_print_escaped (fun _ => none) (fun _ => []) (some c1tok) =
        some (c1bytes ++ [0])) ∧
    unescape (escapeLoop c1bytes) = c1bytes :=
  token_print_escaped_string_spec (fun _ => none) (fun _ => []) c1tok
    ⟨0, c1bytes⟩ 6 rfl rfl (by decide)

/-- Both paths of `token_print_escaped`'s core produce the escape
expansion of the bytes actually read. -/
theorem token_print_escaped_core_eq (str : List Nat) (str_len : Nat) :
    token_print_escaped_core str str_len =
      escapeLoop (str.take str_len) ++ [0] := by
  unfold token_print_escaped_core
  by_cases h0 : countEscapes (str.take str_len) = 0
  · rw [if_pos h0, escapeLoop_of_no_escapes _ h0]
  · rw [if_neg h0]

/-- Reading `strlen s` bytes of `s` reads exactly the bytes before the
first zero byte. -/
theorem take_strlen (s : List Nat) :
    s.take (strlen s) = s.takeWhile (· ≠ 0) := by
  unfold strlen
  exact ( List.prefix_iff_eq_take.mp ( List.takeWhile_prefix _)).symm

/-- C10: `token_print_escaped` uses the stored explicit length only for
string-kind tokens; every other kind is rendered by `token_print` and
measured by `strlen`, so an identifier whose interned text contains an
embedded zero byte is escaped only up to, and excluding, the first zero
byte, the rest being dropped. -/
theorem token_print_escaped_strlen_spec
    (lp : token_id → Option (List Nat)) (fg : Nat → List Nat)
    (t : token_t) (p : iptr) (n : Nat) :
    (t.id ≠ .TK_STRING →
      token_print_escaped lp fg (some t) =
        some (token_print_escaped_core (token_print lp fg t)
          (strlen (token_print lp fg t)))) ∧
    (t.id = .TK_STRING → t.payload = .text p n →
      token_print_escaped lp fg (some t) =
        some (token_print_escaped_core p.bytes n)) ∧
    (t.id = .TK_ID → t.payload = .text p n →
      token_print_escaped lp fg (some t) =
        some (escapeLoop (p.bytes.takeWhile (· ≠ 0)) ++ [0])) := by
  refine ⟨?_, ?_, ?_⟩
  · intro hns
    simp [token_print_escaped, hns]
  · intro hid hp
    simp [token_print_escaped, hid, hp, payload_t.stringv,
      payload_t.str_lengthv]
  · intro hid hp
    have hns : t.id ≠ .TK_STRING := by rw [hid]; intro h; cases h
    have hpr : token_print lp fg t = p.bytes := by
      obtain ⟨tid, tsrc, tline, tpos, tpr, tpl⟩ := t
      simp only at hid hp
      subst hid hp
      simp [token_print, payload_t.stringv]
    simp only [token_print_escaped, if_neg hns, hpr]
    rw [token_print_escaped_core_eq, take_strlen]

/-- An identifier token whose interned text holds `a<zero>b`. -/
def c10tok : token_t :=
  { id := .TK_ID, source := none, line := 0, pos := 0, printed := none,
    payload := .text ⟨0, [97, 0, 98]⟩ 3 }

/-- C10 witness: on the identifier token whose text is `a<zero>b`, only
the byte before the zero survives escaping. -/
theorem token_print_escaped_strlen_spec_witness :
    (c10tok.id ≠ .TK_STRING →
      token_print_escaped (fun _ => none) (fun _ => []) (some c10tok) =
        some (token_print_escaped_core
          (token_print (fun _ => none) (fun _ => []) c10tok)
          (strlen (token_print (fun _ => none) (fun _ => []) c10tok)))) ∧
    (c10tok.id = .TK_STRING → c10tok.payload = .text ⟨0, [97, 0, 98]⟩ 3 →
      token_print_escaped (fun _ => none) (fun _ => []) (some c10tok) =
        some (token_print_escaped_core [97, 0, 98] 3)) ∧
    (c10tok.id = .TK_ID → c10tok.payload = .text ⟨0, [97, 0, 98]⟩ 3 →
      token_print_escaped (fun _ => none) (fun _ => []) (some c10tok) =
        some (escapeLoop (List.takeWhile (· ≠ 0) [97, 0, 98]) ++ [0])) :=
  token_print_escaped_strlen_spec (fun _ => none) (fun _ => []) c10tok
    ⟨0, [97, 0, 98]⟩ 3

/-- The C call `strcspn(g, ".e")` spans the whole string exactly when `g` contains
neither `.` (46) nor `e` (101). -/
theorem strcspnDotE_eq_length_iff (g : List Nat) :
    strcspnDotE g = g.length ↔ (46 ∉ g ∧ 101 ∉ g) := by
  unfold strcspnDotE
  constructor
  · intro h
    have heq : g.takeWhile (fun c => c ≠ 46 ∧ c ≠ 101) = g :=
      ( List.takeWhile_prefix _).eq_of_length h
    have hall := List.takeWhile_eq_self_iff.mp heq
    constructor
    · intro hm
      have := hall 46 hm
      simp at this
    · intro hm
      have := hall 101 hm
      simp at this
  · intro ⟨h46, h101⟩
    have : g.takeWhile (fun c => c ≠ 46 ∧ c ≠ 101) = g := by
      rw [List.takeWhile_eq_self_iff]
      intro a ha
      have ha46 : a ≠ 46 := fun hc => h46 (hc ▸ ha)
      have ha101 : a ≠ 101 := fun hc => h101 (hc ▸ ha)
      simp [ha46, ha101]
    rw [this]

/-- C3: a float token renders as the `%g` output `g` of its double value
with `".0"` appended exactly when `g` contains neither `.` nor `e`, so
the result always contains `.` or `e`; `%g` output `2` becomes `2.0` and
`0.0001` is unmodified. -/
theorem token_print_float_spec
    (lp : token_id → Option (List Nat)) (fg : Nat → List Nat)
    (t : token_t) (bits : Nat) (g : List Nat)
    (hid : t.id = .TK_FLOAT) (hp : t.payload = .real bits)
    (hg : fg bits = g) :
    token_print lp fg t = fmtFloatAdjust g ∧
    ((46 ∉ g ∧ 101 ∉ g) → token_print lp fg t = g ++ ascii ".0") ∧
    ((46 ∈ g ∨ 101 ∈ g) → token_print lp fg t = g) ∧
    (46 ∈ token_print lp fg t ∨ 101 ∈ token_print lp fg t) ∧
    fmtFloatAdjust (ascii "2") = ascii "2.0" ∧
    fmtFloatAdjust (ascii "0.0001") = ascii "0.0001" := by
  have h1 : token_print lp fg t = fmtFloatAdjust g := by
    obtain ⟨tid, tsrc, tline, tpos, tpr, tpl⟩ := t
    simp only at hid hp
    subst hid hp
    simp [token_print, payload_t.realv, hg]
  have happ : (46 ∉ g ∧ 101 ∉ g) → fmtFloatAdjust g = g ++ [46, 48] := by
    intro h
    unfold fmtFloatAdjust
    rw [if_pos ((strcspnDotE_eq_length_iff g).mpr h)]
  have hkeep : (46 ∈ g ∨ 101 ∈ g) → fmtFloatAdjust g = g := by
    intro h
    unfold fmtFloatAdjust
    rw [if_neg]
    intro hc
    have := (strcspnDotE_eq_length_iff g).mp hc
    tauto
  refine ⟨h1, ?_, ?_, ?_, by decide, by decide⟩
  · intro h
    rw [h1, happ h]
    rfl
  · intro h
    rw [h1, hkeep h]
  · rw [h1]
    by_cases h : 46 ∈ g ∨ 101 ∈ g
    · rw [hkeep h]
      exact h
    · push_neg at h
      rw [happ h]
      left
      simp

/-- A float token (the double value is opaque; `%g` is instantiated to
return `2` for it, as it does for the double `2.0`). -/
def c3tok : token_t :=
  { id := .TK_FLOAT, source := none, line := 0, pos := 0, printed := none,
    payload := .real 0 }

/-- C3 witness: with `%g` returning `2`, the float token renders `2.0`. -/
theorem token_print_float_spec_witness :
    token_print (fun _ => none) (fun _ => ascii "2") c3tok =
      fmtFloatAdjust (ascii "2") ∧
    ((46 ∉ ascii "2" ∧ 101 ∉ ascii "2") →
      token_print (fun _ => none) (fun _ => ascii "2") c3tok =
        ascii "2" ++ ascii ".0") ∧
    ((46 ∈ ascii "2" ∨ 101 ∈ ascii "2") →
      token_print (fun _ => none) (fun _ => ascii "2") c3tok = ascii "2") ∧
    (46 ∈ token_print (fun _ => none) (fun _ => ascii "2") c3tok ∨
      101 ∈ token_print (fun _ => none) (fun _ => ascii "2") c3tok) ∧
    fmtFloatAdjust (ascii "2") = ascii "2.0" ∧
    fmtFloatAdjust (ascii "0.0001") = ascii "0.0001" :=
  token_print_float_spec (fun _ => none) (fun _ => ascii "2") c3tok 0
    (ascii "2") rfl rfl rfl

/-- C4: an integer token renders the decimal digits of its extended
value reduced modulo `2^64` (the low word): `0` renders `"0"`, any
64-bit value renders its exact digits (the maximum being
`18446744073709551615`), and a value wider than 64 bits renders only the
low word's digits. -/
theorem token_print_int_spec
    (lp : token_id → Option (List Nat)) (fg : Nat → List Nat)
    (t : token_t) (i : lexint_t)
    (hid : t.id = .TK_INT) (hp : t.payload = .integer i)
    (hlow : i.low < 2 ^ 64) :
    token_print lp fg t = decDigits (i.value % 2 ^ 64) ∧
    (i.value < 2 ^ 64 → token_print lp fg t = decDigits i.value) ∧
    (i.value = 0 → token_print lp fg t = ascii "0") ∧
    decDigits (2 ^ 64 - 1) = ascii "18446744073709551615" ∧
    token_print lp fg
      { id := .TK_INT, source := none, line := 0, pos := 0, printed := none,
        payload := .integer ⟨5, 3⟩ } = ascii "5" := by
  have hmod : i.value % 2 ^ 64 = i.low := by
    unfold lexint_t.value
    rw [Nat.add_mul_mod_self_left]
    exact Nat.mod_eq_of_lt hlow
  have h1 : token_print lp fg t = decDigits (i.value % 2 ^ 64) := by
    obtain ⟨tid, tsrc, tline, tpos, tpr, tpl⟩ := t
    simp only at hid hp
    subst hid hp
    simp only [token_print, payload_t.integerv]
    rw [hmod, Nat.mod_eq_of_lt hlow]
  refine ⟨h1, ?_, ?_, by decide, ?_⟩
  · intro hv
    rw [h1, Nat.mod_eq_of_lt hv]
  · intro hv
    rw [h1, hv]
    decide
  · simp [token_print, payload_t.integerv]
    decide

/-- An integer token holding the 128-bit value `7`. -/
def c4tok : token_t :=
  { id := .TK_INT, source := none, line := 0, pos := 0, printed := none,
    payload := .integer ⟨7, 0⟩ }

/-- C4 witness: the theorem applied to an integer token with value 7. -/
theorem token_print_int_spec_witness :
    token_print (fun _ => none) (fun _ => []) c4tok =
      decDigits ((lexint_t.mk 7 0).value % 2 ^ 64) ∧
    ((lexint_t.mk 7 0).value < 2 ^ 64 →
      token_print (fun _ => none) (fun _ => []) c4tok =
        decDigits (lexint_t.mk 7 0).value) ∧
    ((lexint_t.mk 7 0).value = 0 →
      token_print (fun _ => none) (fun _ => []) c4tok = ascii "0") ∧
    decDigits (2 ^ 64 - 1) = ascii "18446744073709551615" ∧
    token_print (fun _ => none) (fun _ => [])
      { id := .TK_INT, source := none, line := 0, pos := 0, printed := none,
        payload := .integer ⟨5, 3⟩ } = ascii "5" :=
  token_print_int_spec (fun _ => none) (fun _ => []) c4tok ⟨7, 0⟩ rfl rfl
    (by decide)

/-- C2 counterexample: for a kind with no registered lexer name,
`token_id_desc` does not return `"UNKNOWN"` (the code's literal is the
misspelled `"UNKOWN"`). -/
theorem token_id_desc_counterexample :
    token_id_desc (fun _ => none) (.TK_OTHER 999) ≠ ascii "UNKNOWN" ∧
    token_id_desc (fun _ => none) (.TK_OTHER 999) = ascii "UNKOWN" := by
  constructor
  · decide
  · rfl

/-- C2 (amended): `token_id_desc` returns the fixed noun phrases for the
literal kinds, otherwise the lexer's registered name, and for a kind
with no registered name exactly the (misspelled) string `"UNKOWN"`. -/
theorem token_id_desc_spec (lp : token_id → Option (List Nat)) :
    token_id_desc lp .TK_EOF = ascii "EOF" ∧
    token_id_desc lp .TK_ID = ascii "id" ∧
    token_id_desc lp .TK_STRING = ascii "string literal" ∧
    token_id_desc lp .TK_INT = ascii "int literal" ∧
    token_id_desc lp .TK_FLOAT = ascii "float literal" ∧
    token_id_desc lp .TK_TRUE = ascii "true literal" ∧
    token_id_desc lp .TK_FALSE = ascii "false literal" ∧
    (∀ id, isDescLiteralKind id = false →
      (∀ p, lp id = some p → token_id_desc lp id = p) ∧
      (lp id = none → token_id_desc lp id = ascii "UNKOWN")) := by
  refine ⟨rfl, rfl, rfl, rfl, rfl, rfl, rfl, ?_⟩
  intro id hlit
  constructor
  · intro p hp
    cases id <;> simp [isDescLiteralKind] at hlit <;> simp [token_id_desc, hp]
  · intro h
    cases id <;> simp [isDescLiteralKind] at hlit <;> simp [token_id_desc, h]

/-- C2 witness: the amended theorem applied to a kind with no registered
lexer name. -/
theorem token_id_desc_spec_witness :
    token_id_desc (fun _ => none) (.TK_OTHER 7) = ascii "UNKOWN" :=
  ((token_id_desc_spec (fun _ => none)).2.2.2.2.2.2.2 (.TK_OTHER 7) rfl).2 rfl

/-- C5: `token_dup` copies kind, position and payload and starts with an
empty formatted cache; `token_dup_new_id` additionally overrides the
duplicate's kind; and since the duplicate's cache starts empty, a later
render can only ever allocate it a buffer that is fresh (not the
original's buffer `p`), so the two tokens never share a cache buffer. -/
theorem token_dup_spec (t : token_t) (k : token_id)
    (lp : token_id → Option (List Nat)) (σ p : Nat) :
    token_dup (some t) = some { t with printed := none } ∧
    token_dup none = none ∧
    token_dup_new_id (some t) k = some { t with printed := none, id := k } ∧
    token_get_id (token_dup_new_id (some t) k) = some k ∧
    (t.printed = some p → p < σ →
      (token_print_alloc lp { t with printed := none } σ).1.printed ≠
        some p) := by
  refine ⟨rfl, rfl, rfl, rfl, ?_⟩
  intro _ hlt hq
  unfold token_print_alloc at hq
  by_cases ha : token_print_allocates lp ({ t with printed := none }).id
  · rw [if_pos ha] at hq
    simp only [Option.some.injEq] at hq
    omega
  · rw [if_neg ha] at hq
    simp at hq

/-- An integer token whose cache currently owns buffer 0. -/
def c5tok : token_t :=
  { id := .TK_INT, source := none, line := 0, pos := 0, printed := some 0,
    payload := .integer ⟨1, 0⟩ }

/-- C5 witness: duplicating a token that owns cache buffer 0 and then
rendering the duplicate does not hand the duplicate buffer 0. -/
theorem token_dup_spec_witness :
    (token_print_alloc (fun _ => none) { c5tok with printed := none }
      1).1.printed ≠ some 0 :=
  (token_dup_spec c5tok .TK_EOF (fun _ => none) 1 0).2.2.2.2 rfl
    (by decide)

/-- C6: each payload accessor succeeds exactly on its allowed kind set,
fails the assertion (`none`) on a null token or any other kind, and
inside the allowed set returns the last value set. -/
theorem token_accessors_spec (t : token_t) (tab : List (List Nat))
    (v : List Nat) (l : Nat) (r : Nat) (i : lexint_t) :
    ((token_string (some t)).isSome ↔
      (t.id = .TK_STRING ∨ t.id = .TK_ID)) ∧
    ((token_string_len (some t)).isSome ↔
      (t.id = .TK_STRING ∨ t.id = .TK_ID)) ∧
    ((token_float (some t)).isSome ↔ t.id = .TK_FLOAT) ∧
    ((token_int (some t)).isSome ↔ t.id = .TK_INT) ∧
    token_string none = none ∧ token_string_len none = none ∧
    token_float none = none ∧ token_int none = none ∧
    (t.id = .TK_FLOAT → token_float (token_set_float (some t) r) = some r) ∧
    (t.id = .TK_INT → token_int (token_set_int (some t) i) = some i) ∧
    (∀ t2 tab2, token_set_string tab (some t) v l = some (t2, tab2) →
      token_string (some t2) =
        some (stringtab_len tab v (if l = 0 then strlen v else l)).1 ∧
      token_string_len (some t2) =
        some (if l = 0 then strlen v else l)) := by
  refine ⟨?_, ?_, ?_, ?_, rfl, rfl, rfl, rfl, ?_, ?_, ?_⟩
  · by_cases h : (t.id = .TK_STRING ∨ t.id = .TK_ID) <;>
      simp [token_string, h]
  · by_cases h : (t.id = .TK_STRING ∨ t.id = .TK_ID) <;>
      simp [token_string_len, h]
  · by_cases h : t.id = .TK_FLOAT <;> simp [token_float, h]
  · by_cases h : t.id = .TK_INT <;> simp [token_int, h]
  · intro h
    simp [token_set_float, h, token_float, payload_t.realv]
  · intro h
    simp [token_set_int, h, token_int, payload_t.integerv]
  · intro t2 tab2 heq
    simp only [token_set_string] at heq
    by_cases hk : (t.id = .TK_STRING ∨ t.id = .TK_ID)
    · rw [if_pos hk] at heq
      simp only [Option.some.injEq, Prod.mk.injEq] at heq
      obtain ⟨ht2, -⟩ := heq
      subst ht2
      simp [token_string, token_string_len, hk, payload_t.stringv,
        payload_t.str_lengthv]
    · rw [if_neg hk] at heq
      simp at heq

/-- A string token used to witness the accessor contract. -/
def c6tok : token_t :=
  { id := .TK_STRING, source := none, line := 0, pos := 0, printed := none,
    payload := .pnone }

/-- C6 witness: setting text `a` on a fresh string token and reading it
back through the accessors. -/
theorem token_accessors_spec_witness :
    token_string (some { c6tok with payload := .text ⟨0, [97]⟩ 1 }) =
      some (stringtab_len [] [97] (if 1 = 0 then strlen [97] else 1)).1 ∧
    token_string_len (some { c6tok with payload := .text ⟨0, [97]⟩ 1 }) =
      some (if 1 = 0 then strlen [97] else 1) :=
  (token_accessors_spec c6tok [] [97] 1 0 ⟨0, 0⟩).2.2.2.2.2.2.2.2.2.2
    { c6tok with payload := .text ⟨0, [97]⟩ 1 } [[97]] (by decide)

/-- After an unsuccessful lookup, the appended entry is found at the old
arena length. -/
theorem stIdx_append_self (tab : List (List Nat)) (s : List Nat)
    (h : stIdx tab s = none) : stIdx (tab ++ [s]) s = some tab.length := by
  induction tab with
  | nil => simp [stIdx]
  | cons x xs ih =>
    have hh : (if x = s then some 0 else (stIdx xs s).map (· + 1)) = none := h
    have hgoal : stIdx ((x :: xs) ++ [s]) s =
        if x = s then some 0 else (stIdx (xs ++ [s]) s).map (· + 1) := rfl
    by_cases hx : x = s
    · rw [if_pos hx] at hh
      exact absurd hh (by simp)
    · rw [if_neg hx] at hh
      rw [hgoal, if_neg hx, ih (by simpa using hh)]
      simp

/-- The canonical pointer always carries the first `len` input bytes. -/
theorem stringtab_len_bytes (tab : List (List Nat)) (v : List Nat)
    (len : Nat) : ((stringtab_len tab v len).1).bytes = v.take len := by
  unfold stringtab_len
  cases h : stIdx tab (v.take len) <;> simp [h]

/-- Interning the same content again, in the arena produced by the first
intern, returns the same canonical pointer (deduplication). -/
theorem stringtab_len_dedup (tab : List (List Nat)) (v w : List Nat)
    (n m : Nat) (heq : v.take n = w.take m) :
    (stringtab_len (stringtab_len tab v n).2 w m).1 =
      (stringtab_len tab v n).1 := by
  unfold stringtab_len
  rw [← heq]
  cases h : stIdx tab (v.take n) with
  | some i => simp [h]
  | none => simp [h, stIdx_append_self tab (v.take n) h]

/-- C7: `token_set_string` with length 0 stores exactly what passing the
scanned length would; afterwards `text`/`text_length` return the
interned bytes and that length; and two tokens set to equal byte content
hold pointer-identical text. -/
theorem token_set_string_spec (tab : List (List Nat)) (t t' : token_t)
    (v w : List Nat) :
    token_set_string tab (some t) v 0 =
      token_set_string tab (some t) v (strlen v) ∧
    (∀ l t2 tab2, token_set_string tab (some t) v l = some (t2, tab2) →
      (token_string (some t2)).map iptr.bytes =
        some (v.take (if l = 0 then strlen v else l)) ∧
      token_string_len (some t2) = some (if l = 0 then strlen v else l)) ∧
    (∀ l1 l2 t1 tab1 t2 tab2,
      token_set_string tab (some t) v l1 = some (t1, tab1) →
      token_set_string tab1 (some t') w l2 = some (t2, tab2) →
      v.take (if l1 = 0 then strlen v else l1) =
        w.take (if l2 = 0 then strlen w else l2) →
      token_string (some t1) = token_string (some t2)) := by
  refine ⟨?_, ?_, ?_⟩
  · simp only [token_set_string]
    by_cases hk : (t.id = .TK_STRING ∨ t.id = .TK_ID)
    · rw [if_pos hk, if_pos hk]
      simp
    · rw [if_neg hk, if_neg hk]
  · intro l t2 tab2 heq
    simp only [token_set_string] at heq
    by_cases hk : (t.id = .TK_STRING ∨ t.id = .TK_ID)
    · rw [if_pos hk] at heq
      simp only [Option.some.injEq, Prod.mk.injEq] at heq
      obtain ⟨ht2, -⟩ := heq
      subst ht2
      simp [token_string, token_string_len, hk, payload_t.stringv,
        payload_t.str_lengthv, stringtab_len_bytes]
    · rw [if_neg hk] at heq
      simp at heq
  · intro l1 l2 t1 tab1 t2 tab2 h1 h2 heq
    simp only [token_set_string] at h1 h2
    by_cases hk : (t.id = .TK_STRING ∨ t.id = .TK_ID)
    · rw [if_pos hk] at h1
      simp only [Option.some.injEq, Prod.mk.injEq] at h1
      obtain ⟨ht1, htab1⟩ := h1
      subst ht1
      by_cases hk' : (t'.id = .TK_STRING ∨ t'.id = .TK_ID)
      · rw [if_pos hk'] at h2
        simp only [Option.some.injEq, Prod.mk.injEq] at h2
        obtain ⟨ht2, -⟩ := h2
        subst ht2
        subst htab1
        simp only [token_string, if_pos hk, if_pos hk', payload_t.stringv,
          Option.some.injEq]
        exact (stringtab_len_dedup tab v w _ _ heq).symm
      · rw [if_neg hk'] at h2
        simp at h2
    · rw [if_neg hk] at h1
      simp at h1

/-- C7 witness: setting `a<zero-terminated>` with length 0 equals setting
it with length 1, and two tokens given the content `a` end up with the
same canonical pointer. -/
theorem token_set_string_spec_witness :
    token_set_string [] (some c6tok) [97, 0] 0 =
      token_set_string [] (some c6tok) [97, 0] (strlen [97, 0]) ∧
    token_string
        (some { c6tok with
                payload := .text (stringtab_len [] [97, 0] 1).1 1 }) =
      token_string
        (some { c6tok with
                payload := .text
                  (stringtab_len (stringtab_len [] [97, 0] 1).2 [97] 1).1
                  1 }) :=
  ⟨(token_set_string_spec [] c6tok c6tok [97, 0] [97]).1,
    (token_set_string_spec [] c6tok c6tok [97, 0] [97]).2.2 1 1
      { c6tok with payload := .text (stringtab_len [] [97, 0] 1).1 1 }
      (stringtab_len [] [97, 0] 1).2
      { c6tok with
        payload := .text
          (stringtab_len (stringtab_len [] [97, 0] 1).2 [97] 1).1 1 }
      (stringtab_len (stringtab_len [] [97, 0] 1).2 [97] 1).2
      (by decide) (by decide) (by decide)⟩

/-- C8: `token_set_pos` always overwrites line and column, overwrites
the source reference only when the supplied source is non-null, and
leaves every other field unchanged. -/
theorem token_set_pos_spec (t : token_t) (src : Option Nat)
    (line pos : Nat) :
    token_set_pos none src line pos = none ∧
    (src ≠ none → token_set_pos (some t) src line pos =
      some { t with source := src, line := line, pos := pos }) ∧
    (src = none → token_set_pos (some t) src line pos =
      some { t with line := line, pos := pos }) := by
  refine ⟨rfl, ?_, ?_⟩
  · intro h
    obtain ⟨s, rfl⟩ := Option.ne_none_iff_exists'.mp h
    rfl
  · intro h
    subst h
    rfl

/-- C8 witness: a position update with a non-null source on a fresh
token. -/
theorem token_set_pos_spec_witness :
    token_set_pos (some (token_new .TK_EOF)) (some 5) 2 3 =
      some { token_new .TK_EOF with
             source := some 5, line := 2, pos := 3 } :=
  (token_set_pos_spec (token_new .TK_EOF) (some 5) 2 3).2.1 (by decide)

/-- C9: `token_free` on a null token is a no-op (and, being total, does
not fault); on a non-null token it first releases the 64-byte cache
buffer when one is present, then the token's own storage. -/
theorem token_free_spec (t : token_t) (p : Nat) :
    token_free none = [] ∧
    (t.printed = some p →
      token_free (some t) =
        [free_event.free_size 64 p, free_event.free_token]) ∧
    (t.printed = none → token_free (some t) = [free_event.free_token]) := by
  refine ⟨rfl, ?_, ?_⟩
  · intro h
    simp [token_free, h]
  · intro h
    simp [token_free, h]

/-- C9 witness: freeing a token that owns cache buffer 4. -/
theorem token_free_spec_witness :
    token_free (some { token_new .TK_EOF with printed := some 4 }) =
      [free_event.free_size 64 4, free_event.free_token] :=
  (token_free_spec { token_new .TK_EOF with printed := some 4 } 4).2.1 rfl
